import Mathlib

/-!
Verification development for the AICompanion workflow execution engine.

The definitions below are a shallow embedding of the TypeScript sources:
  - `src/server/workflow/engine.ts`   (WorkflowEngine)
  - `src/server/workflow/handlers.ts` (node handlers)
  - `src/server/workflow/registry.ts` (node registry interface)
  - `src/shared/schema.ts`            (NodeType, ConnectionType, Workflow)
  - the Express webhook route `workflowRouter.post` for `/webhook/:path`

Dynamic JavaScript values (`any` / `Record<string, any>`) are embedded as
`JValue` / `RecordJ`; JavaScript objects are modelled as insertion-ordered
association lists with unique keys, and object spread `{...a, ...b}` as
`recMerge`.  Promises are flattened: an `async` function that resolves is
`Except.ok`, one that rejects is `Except.error` carrying the error message.
Wall-clock timestamps are threaded as opaque string parameters; numeric
values are modelled as integers (no claim touches float formatting).
-/

/-- The open-brace character, written via its code point. -/
def lbrace : Char := Char.ofNat 123

/-- The close-brace character, written via its code point. -/
def rbrace : Char := Char.ofNat 125

/-- Dynamic JavaScript values as they occur in node parameters and
inter-node data payloads (`Record<string, any>` in the source). -/
inductive JValue where
  | null : JValue
  | bool : Bool → JValue
  | num : Int → JValue
  | str : String → JValue
  | arr : List JValue → JValue
  | obj : List (String × JValue) → JValue

/-- A JavaScript object: insertion-ordered fields with unique keys. -/
abbrev RecordJ := List (String × JValue)

/-- Property read `r[k]`: `none` models the JavaScript value `undefined`. -/
def recGet (r : RecordJ) (k : String) : Option JValue :=
  (r.find? (fun p => p.1 == k)).map (fun p => p.2)

/-- Assigning one key, JavaScript-object style: an existing key keeps its
position and gets the new value, a fresh key is appended at the end. -/
def recSet (r : RecordJ) (k : String) (v : JValue) : RecordJ :=
  if r.any (fun p => p.1 == k) then
    r.map (fun p => if p.1 == k then (k, v) else p)
  else
    r ++ [(k, v)]

/-- Object spread `{...a, ...b}`: fields of `b` overwrite same-named fields
of `a` (last-merged-wins), fresh fields of `b` are appended in order. -/
def recMerge (a b : RecordJ) : RecordJ :=
  b.foldl (fun acc p => recSet acc p.1 p.2) a

/-- Fields contributed by spreading an arbitrary value into an object
literal: objects contribute their fields, strings and arrays contribute
index-keyed entries, every other value contributes nothing. -/
def spreadFields : Option JValue → RecordJ
  | some (JValue.obj kvs) => kvs
  | some (JValue.str s) =>
      (s.toList.enum).map (fun p => (toString p.1, JValue.str (String.mk [p.2])))
  | some (JValue.arr xs) =>
      (xs.enum).map (fun p => (toString p.1, p.2))
  | _ => []

/-- JavaScript truthiness test, negated: `undefined`, `null`, `false`,
`0` and the empty string are falsy. -/
def jsFalsy : Option JValue → Bool
  | none => true
  | some JValue.null => true
  | some (JValue.bool false) => true
  | some (JValue.num 0) => true
  | some (JValue.str "") => true
  | _ => false

/-- Strict equality `v === s` between a dynamic value and a string literal:
true exactly when `v` is that string. -/
def isStrVal (v : Option JValue) (s : String) : Bool :=
  match v with
  | some (JValue.str t) => t == s
  | _ => false

/-- JavaScript `String(value)` conversion (array elements recursively;
`null` inside an array prints as the empty string, as in JavaScript). -/
def jsToString : JValue → String
  | JValue.null => "null"
  | JValue.bool true => "true"
  | JValue.bool false => "false"
  | JValue.num n => toString n
  | JValue.str s => s
  | JValue.obj _ => "[object Object]"
  | JValue.arr xs => arrToString xs
where
  /-- Array-to-string: elements joined by commas, `null` printing empty. -/
  arrToString : List JValue → String
  | [] => ""
  | [JValue.null] => ""
  | [v] => jsToString v
  | JValue.null :: rest => "," ++ arrToString rest
  | v :: rest => jsToString v ++ "," ++ arrToString rest

/-- Character-list prefix test (used to embed `String.prototype.includes`). -/
def charsStart : List Char → List Char → Bool
  | [], _ => true
  | _ :: _, [] => false
  | a :: as_, b :: bs => a == b && charsStart as_ bs

/-- Character-list containment test. -/
def charsSub (pat : List Char) : List Char → Bool
  | [] => charsStart pat []
  | c :: rest => charsStart pat (c :: rest) || charsSub pat rest

/-- Embedding of JavaScript `s.includes(pat)` (substring containment). -/
def strIncludes (s pat : String) : Bool :=
  charsSub pat.toList s.toList

/-- Walk a dot-separated path through dynamic data, the way the handler
loops `value = value?.[segment]` do: stepping into anything but an object
field yields `undefined` (`none`).  Index and `length` properties of
strings and arrays are not modelled; no claim touches them. -/
def pathWalk : JValue → List String → Option JValue
  | v, [] => some v
  | JValue.obj kvs, s :: rest =>
      match recGet kvs s with
      | some v => pathWalk v rest
      | none => none
  | _, _ :: _ => none

/-- Scan the characters following `{{` for the regex `/{{([^{}]+)}}/`:
one or more non-brace characters followed by `}}`.  Returns the captured
key (reversed accumulator) and the remaining input on success. -/
def phTake (acc : List Char) : List Char → Option (List Char × List Char)
  | [] => none
  | c :: rest =>
      if c = rbrace then
        match rest with
        | c2 :: rest2 =>
            if c2 = rbrace then
              if acc.isEmpty then none else some (acc.reverse, rest2)
            else none
        | [] => none
      else if c = lbrace then none
      else phTake (c :: acc) rest

/-- Whitespace-trimming of a character list (JavaScript `key.trim()`). -/
def charsTrim (l : List Char) : List Char :=
  ((l.dropWhile Char.isWhitespace).reverse.dropWhile Char.isWhitespace).reverse

/-- Splitting a character list at every dot (JavaScript `key.split(".")`),
keeping empty segments like `split` does. -/
def splitDots : List Char → List (List Char)
  | [] => [[]]
  | c :: rest =>
      if c = '.' then [] :: splitDots rest
      else
        match splitDots rest with
        | h :: t => (c :: h) :: t
        | [] => [[c]]

/-- One placeholder substitution, the regex-callback of
`HttpRequestHandler.replacePlaceholders`: trim the captured key, split it
on dots, walk the path through the input data; an unresolved path leaves
the raw placeholder text in place. -/
def phReplace (d : RecordJ) (key : List Char) : List Char :=
  let path := (splitDots (charsTrim key)).map String.mk
  match pathWalk (JValue.obj d) path with
  | some v => (jsToString v).toList
  | none => lbrace :: lbrace :: key ++ [rbrace, rbrace]

/-- Left-to-right global scan for `/{{([^{}]+)}}/g`.  The `sawOpen` flag
records that a single `{` has just been consumed; a failed match at a
position re-emits the character and resumes from the next one, exactly as
the regex engine advances.  `fuel` only bounds recursion depth; the budget
chosen by `replacePlaceholders` can never run out. -/
def scanPH (d : RecordJ) : Nat → Bool → List Char → List Char
  | 0, _, l => l
  | Nat.succ _, false, [] => []
  | Nat.succ fuel, false, c :: rest =>
      if c = lbrace then scanPH d fuel true rest
      else c :: scanPH d fuel false rest
  | Nat.succ fuel, true, [] => lbrace :: scanPH d fuel false []
  | Nat.succ fuel, true, c :: rest =>
      if c = lbrace then
        match phTake [] rest with
        | some (key, rest2) => phReplace d key ++ scanPH d fuel false rest2
        | none => lbrace :: scanPH d fuel false (c :: rest)
      else lbrace :: scanPH d fuel false (c :: rest)

/-- Embedding of `HttpRequestHandler.replacePlaceholders(text, data)`:
empty (falsy) text short-circuits to the empty string, otherwise every
`{{dotted.path}}` placeholder is globally substituted. -/
def replacePlaceholders (text : String) (d : RecordJ) : String :=
  if text = "" then ""
  else String.mk (scanPH d (text.toList.length * 2 + 2) false text.toList)

/-- `NodeType` from `src/shared/schema.ts` (position, typeVersion,
credentials, disabled and notes are cosmetic or unused by the engine and
the webhook route, and are omitted). -/
structure Node where
  id : String
  name : String
  type : String
  parameters : RecordJ

/-- `ConnectionType` from `src/shared/schema.ts`. -/
structure Connection where
  source : String
  sourceHandle : Option String
  target : String
  targetHandle : Option String

/-- The workflow fields read by the engine and the webhook route. -/
structure Workflow where
  id : Int
  active : Bool
  nodes : List Node
  connections : List Connection

/-- `TriggerHandler.execute` (base trigger, also the behaviour of
`ManualTriggerHandler`-style triggers): always succeeds, echoing the
input under `data` with trigger metadata. -/
def triggerExecute (ts : String) (_node : Node) (inputData : RecordJ) :
    Except String RecordJ :=
  Except.ok [("success", JValue.bool true), ("triggered", JValue.bool true),
    ("timestamp", JValue.str ts), ("data", JValue.obj inputData)]

/-- `WebhookTriggerHandler.execute`: echoes path and method (defaulting a
falsy method to POST) plus the input data. -/
def webhookTriggerExecute (ts : String) (node : Node) (inputData : RecordJ) :
    Except String RecordJ :=
  let p := node.parameters
  let methodVal : JValue :=
    if jsFalsy (recGet p "method") then JValue.str "POST"
    else (recGet p "method").getD JValue.null
  Except.ok [("success", JValue.bool true), ("triggered", JValue.bool true),
    ("timestamp", JValue.str ts),
    ("webhook", JValue.obj [("path", (recGet p "path").getD JValue.null),
      ("method", methodVal)]),
    ("data", JValue.obj inputData)]

/-- The shape of a resolved axios response: status code, payload, headers. -/
structure AxiosResponse where
  status : Int
  data : JValue
  headers : RecordJ

/-- The behaviour of one `axios(...)` call, supplied by the environment:
given processed url, method, headers and body, the promise either
resolves to a response or rejects with an error message. -/
abbrev AxiosFn := String → String → RecordJ → Option JValue → Except String AxiosResponse

/-- `HttpRequestHandler.processHeaders`: falsy headers give an empty map,
otherwise each string-valued entry has its placeholders substituted.
(`Object.entries` of the header value is modelled by `spreadFields`.) -/
def processHeaders (headers : Option JValue) (d : RecordJ) : RecordJ :=
  if jsFalsy headers then []
  else (spreadFields headers).map (fun p => (p.1,
    match p.2 with
    | JValue.str s => JValue.str (replacePlaceholders s d)
    | v => v))

/-- `HttpRequestHandler.processBody`: falsy body gives `undefined`;
a string body has its placeholders substituted; an object (or array —
`typeof` calls both "object") is rebuilt entry-wise, substituting only
string-valued entries; any other value passes through. -/
def processBody (body : Option JValue) (d : RecordJ) : Option JValue :=
  if jsFalsy body then none
  else match body with
  | some (JValue.str s) => some (JValue.str (replacePlaceholders s d))
  | some (JValue.obj _) | some (JValue.arr _) =>
      some (JValue.obj ((spreadFields body).map (fun p => (p.1,
        match p.2 with
        | JValue.str s => JValue.str (replacePlaceholders s d)
        | v => v))))
  | v => v

/-- `HttpRequestHandler.execute`: substitutes placeholders into url,
headers and body, performs the call, and — crucially — converts a
rejected call into a structured `success: false` output record instead of
rethrowing.  A non-string url parameter is not modelled (no claim passes
one); a falsy method defaults to GET. -/
def httpRequestExecute (ts : String) (axiosFn : AxiosFn) (node : Node)
    (inputData : RecordJ) : Except String RecordJ :=
  let p := node.parameters
  let urlStr := match recGet p "url" with
    | some (JValue.str s) => replacePlaceholders s inputData
    | _ => ""
  let methodStr := match recGet p "method" with
    | some (JValue.str m) => if m = "" then "GET" else m
    | _ => "GET"
  match axiosFn urlStr methodStr (processHeaders (recGet p "headers") inputData)
      (processBody (recGet p "body") inputData) with
  | Except.ok r =>
      Except.ok [("success", JValue.bool true), ("executed", JValue.bool true),
        ("timestamp", JValue.str ts), ("statusCode", JValue.num r.status),
        ("data", r.data), ("headers", JValue.obj r.headers)]
  | Except.error e =>
      Except.ok [("success", JValue.bool false), ("executed", JValue.bool true),
        ("timestamp", JValue.str ts), ("error", JValue.str e),
        ("data", JValue.obj inputData)]

/-- `EmailSendHandler.execute`: simulated send, always succeeds; a falsy
`from` defaults to `noreply@example.com`.  A parameter whose value is
`undefined` is modelled as `null` inside the echoed email object. -/
def emailSendExecute (ts : String) (node : Node) (inputData : RecordJ) :
    Except String RecordJ :=
  let p := node.parameters
  let fromVal : JValue :=
    if jsFalsy (recGet p "from") then JValue.str "noreply@example.com"
    else (recGet p "from").getD JValue.null
  Except.ok [("success", JValue.bool true), ("executed", JValue.bool true),
    ("timestamp", JValue.str ts),
    ("email", JValue.obj [("to", (recGet p "to").getD JValue.null),
      ("from", fromVal),
      ("subject", (recGet p "subject").getD JValue.null),
      ("body", (recGet p "body").getD JValue.null)]),
    ("data", JValue.obj inputData)]

/-- The combinator call in `FilterHandler.execute`.  The source selects a
method reference (`const combine = combinator === 'OR' ? this.anyConditionMatches
: this.allConditionsMatch`) and invokes it detached, so inside the call
`this` is `undefined` (strict-mode class body).  Both combinators first
return `true` for falsy or empty `conditions` without touching `this`;
for a non-empty array they reach `this.evaluateCondition` and throw a
TypeError; a truthy non-array reaches a method lookup on a value that has
none and equally throws.  Consequently `evaluateCondition` itself is
unreachable and is not embedded.  Both combinators behave identically, so
the selected branch (`useOr`) is irrelevant. -/
def filterCombine (_useOr : Bool) (conditions : Option JValue) : Except String Bool :=
  if jsFalsy conditions then Except.ok true
  else match conditions with
  | some (JValue.arr []) => Except.ok true
  | some (JValue.arr (_ :: _)) =>
      Except.error "TypeError: Cannot read properties of undefined"
  | _ => Except.error "TypeError: not a function"

/-- `FilterHandler.execute`: on a pass the input data flows through under
`data`; on a fail `data` is `null`; a thrown combinator error is caught
and converted to a `success: false` record (so the filter never rejects). -/
def filterExecute (ts : String) (node : Node) (inputData : RecordJ) :
    Except String RecordJ :=
  let p := node.parameters
  let useOr := isStrVal (recGet p "combinator") "OR"
  match filterCombine useOr (recGet p "conditions") with
  | Except.ok matched =>
      Except.ok [("success", JValue.bool true), ("executed", JValue.bool true),
        ("timestamp", JValue.str ts), ("matches", JValue.bool matched),
        ("data", if matched then JValue.obj inputData else JValue.null)]
  | Except.error e =>
      Except.ok [("success", JValue.bool false), ("executed", JValue.bool true),
        ("timestamp", JValue.str ts), ("error", JValue.str e),
        ("data", JValue.obj inputData)]

/-- `LeadCreateHandler.execute`: spreads the configured `leadData` under
the caller-supplied `inputData.leadData`, asks storage to create the
lead (`createLead` is the external effect), and catches a rejection into
a `success: false` record — it never rethrows. -/
def leadCreateExecute (ts : String) (createLead : RecordJ → Except String JValue)
    (node : Node) (inputData : RecordJ) : Except String RecordJ :=
  let mergedLeadData := recMerge (spreadFields (recGet node.parameters "leadData"))
    (spreadFields (recGet inputData "leadData"))
  match createLead mergedLeadData with
  | Except.ok lead =>
      Except.ok [("success", JValue.bool true), ("executed", JValue.bool true),
        ("timestamp", JValue.str ts), ("lead", lead),
        ("data", JValue.obj (recMerge inputData [("lead", lead)]))]
  | Except.error e =>
      Except.ok [("success", JValue.bool false), ("executed", JValue.bool true),
        ("timestamp", JValue.str ts), ("error", JValue.str e),
        ("data", JValue.obj inputData)]

/-- `LeadScoreHandler.execute`: picks `inputData.lead`, else
`inputData.leadData`, else the whole input (truthiness fallbacks), scores
it through the external `scoreLead` capability, and catches a rejection
into a `success: false` record — it never rethrows. -/
def leadScoreExecute (ts : String) (scoreFn : JValue → Except String JValue)
    (_node : Node) (inputData : RecordJ) : Except String RecordJ :=
  let leadData : JValue :=
    if jsFalsy (recGet inputData "lead") = false then
      (recGet inputData "lead").getD JValue.null
    else if jsFalsy (recGet inputData "leadData") = false then
      (recGet inputData "leadData").getD JValue.null
    else JValue.obj inputData
  match scoreFn leadData with
  | Except.ok scoredLead =>
      Except.ok [("success", JValue.bool true), ("executed", JValue.bool true),
        ("timestamp", JValue.str ts), ("scoredLead", scoredLead),
        ("data", JValue.obj (recMerge inputData [("scoredLead", scoredLead)]))]
  | Except.error e =>
      Except.ok [("success", JValue.bool false), ("executed", JValue.bool true),
        ("timestamp", JValue.str ts), ("error", JValue.str e),
        ("data", JValue.obj inputData)]

/-- The per-node matching predicate inside the webhook route
(`workflowRouter.post` for `/webhook/:path`): type must be exactly
`webhook.trigger`, the configured path must be strictly equal to the
request path (case-sensitive string identity), and the configured method
must be falsy (absent) or strictly equal to `req.method` — a
case-sensitive comparison, since `===` is used. -/
def webhookNodeMatches (reqMethod reqPath : String) (n : Node) : Bool :=
  n.type == "webhook.trigger" &&
  isStrVal (recGet n.parameters "path") reqPath &&
  (jsFalsy (recGet n.parameters "method") ||
    isStrVal (recGet n.parameters "method") reqMethod)

/-- The workflow filter of the webhook route: inactive workflows are
skipped, otherwise some node must match. -/
def workflowMatchesWebhook (reqMethod reqPath : String) (wf : Workflow) : Bool :=
  wf.active && wf.nodes.any (webhookNodeMatches reqMethod reqPath)

/-- The trigger-node lookup the route performs on each matching workflow
(note: it re-checks type and path but not the method). -/
def findWebhookTriggerNode (reqPath : String) (wf : Workflow) : Option Node :=
  wf.nodes.find? (fun n => n.type == "webhook.trigger" &&
    isStrVal (recGet n.parameters "path") reqPath)

/-- Whether an inbound request actually triggers a workflow through the
webhook endpoint.  The route is registered with `workflowRouter.post`, so
requests with any method other than POST never reach the handler; within
the handler, a workflow is executed when it passes the filter and the
trigger-node lookup finds a node. -/
def webhookTriggered (reqMethod reqPath : String) (wf : Workflow) : Bool :=
  reqMethod == "POST" && workflowMatchesWebhook reqMethod reqPath wf &&
  (findWebhookTriggerNode reqPath wf).isSome

/-- ASCII uppercase of a character (for the case-insensitive comparison
the spec prescribes). -/
def charUpper (c : Char) : Char :=
  if 97 ≤ c.toNat ∧ c.toNat ≤ 122 then Char.ofNat (c.toNat - 32) else c

/-- ASCII uppercase of a string. -/
def strUpper (s : String) : String :=
  String.mk (s.toList.map charUpper)

/-- Modelled from the spec (claim C6's matching policy, for comparison
with the code's `webhookTriggered`): a workflow is triggered iff it
contains a `webhook.trigger` node whose configured path equals the
request path case-sensitively and whose configured method matches the
request method case-insensitively, an absent method defaulting to
accepting POST and only POST. -/
def specWebhookTriggered (reqMethod reqPath : String) (wf : Workflow) : Bool :=
  wf.active && wf.nodes.any (fun n =>
    n.type == "webhook.trigger" &&
    isStrVal (recGet n.parameters "path") reqPath &&
    (match recGet n.parameters "method" with
     | none => strUpper reqMethod == "POST"
     | some (JValue.str m) => strUpper m == strUpper reqMethod
     | some _ => false))

/-- Per-node status in `NodeExecutionData`. -/
inductive NodeStatus where
  | pending | running | completed | error | skipped
deriving DecidableEq

/-- Execution status in `ExecutionContext`. -/
inductive ExecStatus where
  | running | completed | error | cancelled
deriving DecidableEq

/-- `NodeExecutionData` from `engine.ts` (timestamps are not modelled;
errors are carried as their message strings). -/
structure NodeExecutionData where
  id : String
  name : String
  type : String
  executed : Bool
  status : NodeStatus
  error : Option String
  inputData : RecordJ
  outputData : Option RecordJ

/-- `ExecutionContext` from `engine.ts`.  The `webhook` WebSocket field is
dropped (`sendExecutionUpdate` is fire-and-forget and state-free).  The
extra `invocations` field is ghost instrumentation recording, in order,
each node id whose handler `execute` is actually invoked; it is appended
to exactly where the source performs `await handler.execute(...)` and
never influences control flow. -/
structure ExecutionContext where
  workflowId : Int
  status : ExecStatus
  nodes : List (String × NodeExecutionData)
  currentNodeId : Option String
  data : RecordJ
  error : Option String
  connections : List Connection
  invocations : List String

/-- A handler registry as the engine consumes it: `getHandler` by type
identifier.  The handler's timestamp and external effects are already
folded into the function (the environment chooses them). -/
abbrev Registry := String → Option (Node → RecordJ → Except String RecordJ)

/-- The message of the TypeError thrown inside `getNodeById`. -/
def promiseTypeError : String :=
  "TypeError: Cannot read properties of undefined"

/-- Embedding of `WorkflowEngine.getNodeById`.  The source reads
`const workflow = storage.getWorkflow(execution.workflowId)` and then
returns `workflow?.nodes.find(node => node.id === nodeId)` — but
`DatabaseStorage.getWorkflow` is `async` and the call is not awaited, so
`workflow` is a pending Promise.  A Promise is not nullish, so the
optional chain does not short-circuit; a Promise instance has no `nodes`
property, so `workflow?.nodes` is `undefined`, and reading `.find` off
`undefined` throws a TypeError.  Hence the method always throws for a
defined `nodeId`, and returns `undefined` (per the `if (!nodeId)` guard)
for an undefined one. -/
def getNodeById (nodeId : Option String) : Except String (Option Node) :=
  match nodeId with
  | none => Except.ok none
  | some _ => Except.error promiseTypeError

/-- Lookup in `execution.nodes` (a JavaScript object keyed by node id). -/
def ctxGetNode (ctx : ExecutionContext) (nodeId : String) : Option NodeExecutionData :=
  (ctx.nodes.find? (fun p => p.1 == nodeId)).map (fun p => p.2)

/-- Point update of one entry of `execution.nodes`. -/
def ctxSetNode (ctx : ExecutionContext) (nodeId : String)
    (f : NodeExecutionData → NodeExecutionData) : ExecutionContext :=
  { ctx with nodes := ctx.nodes.map (fun p => if p.1 == nodeId then (p.1, f p.2) else p) }

/-- `WorkflowEngine.findNextNodes`: targets of every connection whose
source is the given node, in declaration order. -/
def findNextNodes (ctx : ExecutionContext) (nodeId : String) : List String :=
  (ctx.connections.filter (fun c => c.source == nodeId)).map (fun c => c.target)

/-- The message of the error raised by unbounded recursion in JavaScript
(the engine has no cycle handling beyond the executed-guard, so exhausted
fuel models stack overflow). -/
def stackOverflowMsg : String := "RangeError: Maximum call stack size exceeded"

/-- Embedding of `WorkflowEngine.executeNode`, fuel-bounded to express the
recursion.  Mirrors the source step for step: the `executed` idempotence
guard, marking the node running, resolving the node definition via
`getNodeById` (which throws, see there), resolving the handler, invoking
it, recording output, merging output into each next node's accumulated
input, recursing into next nodes in connection order, and the `catch`
block that marks the current node `error` and rethrows — including when
the error came from a recursive call.  `sendExecutionUpdate` is a
state-free notification and is not modelled. -/
def executeNode (reg : Registry) : Nat → ExecutionContext → String →
    ExecutionContext × Except String Unit
  | 0, ctx, _ => (ctx, Except.error stackOverflowMsg)
  | Nat.succ fuel, ctx, nodeId =>
    match ctxGetNode ctx nodeId with
    | none => (ctx, Except.error ("Node " ++ nodeId ++ " not found in execution"))
    | some ne =>
      if ne.executed then (ctx, Except.ok ()) else
      let ctx1 := { ctxSetNode ctx nodeId
        (fun n => { n with status := NodeStatus.running }) with
        currentNodeId := some nodeId }
      match getNodeById (some nodeId) with
      | Except.error e =>
          (ctxSetNode ctx1 nodeId
            (fun n => { n with status := NodeStatus.error, error := some e }),
           Except.error e)
      | Except.ok none =>
          let e := "Node " ++ nodeId ++ " definition not found"
          (ctxSetNode ctx1 nodeId
            (fun n => { n with status := NodeStatus.error, error := some e }),
           Except.error e)
      | Except.ok (some node) =>
        match reg node.type with
        | none =>
            let e := "No handler found for node type: " ++ node.type
            (ctxSetNode ctx1 nodeId
              (fun n => { n with status := NodeStatus.error, error := some e }),
             Except.error e)
        | some handler =>
          let ctx1i := { ctx1 with invocations := ctx1.invocations ++ [nodeId] }
          match handler node ne.inputData with
          | Except.error e =>
              (ctxSetNode ctx1i nodeId
                (fun n => { n with status := NodeStatus.error, error := some e }),
               Except.error e)
          | Except.ok outputData =>
            let ctx2 := ctxSetNode ctx1i nodeId
              (fun n => { n with
                          executed := true, status := NodeStatus.completed,
                          outputData := some outputData })
            let nextNodeIds := findNextNodes ctx2 nodeId
            let ctx3 := nextNodeIds.foldl (fun c nid =>
              if (ctxGetNode c nid).isSome then
                ctxSetNode c nid
                  (fun n => { n with inputData := recMerge n.inputData outputData })
              else c) ctx2
            match nextNodeIds.foldl (fun acc nid =>
              match acc with
              | (c, Except.ok _) => executeNode reg fuel c nid
              | (c, Except.error e) => (c, Except.error e)) (ctx3, Except.ok ()) with
            | (ctx4, Except.ok _) => (ctx4, Except.ok ())
            | (ctx4, Except.error e) =>
                (ctxSetNode ctx4 nodeId
                  (fun n => { n with status := NodeStatus.error, error := some e }),
                 Except.error e)

/-- One persisted node outcome inside `formatResults`. -/
structure NodeResult where
  status : NodeStatus
  executed : Bool
  error : Option String
  outputData : Option RecordJ

/-- `WorkflowEngine.formatResults`: the aggregated snapshot written to the
execution record. -/
structure ResultsSnapshot where
  status : ExecStatus
  nodeResults : List (String × NodeResult)
  error : Option String

/-- Embedding of `WorkflowEngine.formatResults`. -/
def formatResults (ctx : ExecutionContext) : ResultsSnapshot :=
  { status := ctx.status,
    nodeResults := ctx.nodes.map (fun p => (p.1,
      { status := p.2.status, executed := p.2.executed,
        error := p.2.error, outputData := p.2.outputData })),
    error := ctx.error }

/-- The final `db.update(executions)` payload of a run (whichever of the
two update sites performed it). -/
structure PersistedUpdate where
  status : ExecStatus
  error : Option String
  results : Option ResultsSnapshot

/-- Embedding of `WorkflowEngine.executeWorkflow`: resolve the start node
(explicit id, else the first node whose type contains the substring
`trigger`, both resolved through the throwing `getNodeById`), execute it,
then persist `{ status: execution.status, results: formatResults(...) }`.
A thrown error propagates to the caller (`execute`'s rejection handler)
without reaching the update. -/
def executeWorkflow (reg : Registry) (fuel : Nat) (ctx : ExecutionContext)
    (startNodeId : Option String) : ExecutionContext × Except String PersistedUpdate :=
  let startRes : Except String (Option Node) :=
    match startNodeId with
    | some id => getNodeById (some id)
    | none => getNodeById (((ctx.nodes.map Prod.snd).find?
        (fun n => strIncludes n.type "trigger")).map (fun n => n.id))
  match startRes with
  | Except.error e => (ctx, Except.error e)
  | Except.ok none => (ctx, Except.error "No trigger node found")
  | Except.ok (some node) =>
    match executeNode reg fuel ctx node.id with
    | (ctx2, Except.error e) => (ctx2, Except.error e)
    | (ctx2, Except.ok _) =>
        (ctx2, Except.ok { status := ctx2.status, error := none,
                           results := some (formatResults ctx2) })

/-- Initialization of `execution.nodes` from the workflow definition. -/
def initNodes (nodes : List Node) : List (String × NodeExecutionData) :=
  nodes.map (fun n => (n.id,
    { id := n.id, name := n.name, type := n.type, executed := false,
      status := NodeStatus.pending, error := none, inputData := [],
      outputData := none }))

/-- Embedding of `WorkflowEngine.execute`: build the execution context
(status `running`, all nodes `pending` with empty accumulated input),
run `executeWorkflow`, and on rejection perform the `catch` of the
source: persist `{ status: 'error', error }` and mark the in-memory
context `error`.  Returns the final context together with the last
persisted update. -/
def execute (reg : Registry) (fuel : Nat) (wf : Workflow) (triggerData : RecordJ)
    (triggerNodeId : Option String) : ExecutionContext × PersistedUpdate :=
  let ctx0 : ExecutionContext :=
    { workflowId := wf.id, status := ExecStatus.running,
      nodes := initNodes wf.nodes, currentNodeId := none,
      data := triggerData, error := none, connections := wf.connections,
      invocations := [] }
  match executeWorkflow reg fuel ctx0 triggerNodeId with
  | (ctx1, Except.ok upd) => (ctx1, upd)
  | (ctx1, Except.error e) =>
      ({ ctx1 with status := ExecStatus.error, error := some e },
       { status := ExecStatus.error, error := some e, results := none })

/-- A bare node fixture with empty parameters. -/
def mkNode (i ty : String) : Node := { id := i, name := i, type := ty, parameters := [] }

/-- A connection fixture without slot handles. -/
def conn (s t : String) : Connection :=
  { source := s, sourceHandle := none, target := t, targetHandle := none }

/-- The diamond workflow of claim C1: connections A to B, A to C, B to D,
C to D, with A a trigger node. -/
def diamondWorkflow : Workflow :=
  { id := 1, active := true,
    nodes := [mkNode "A" "manual.trigger", mkNode "B" "http.request",
              mkNode "C" "http.request", mkNode "D" "email.send"],
    connections := [conn "A" "B", conn "A" "C", conn "B" "D", conn "C" "D"] }

/-- The cyclic workflow of claim C8: A to B and B back to A. -/
def cycleWorkflow : Workflow :=
  { id := 2, active := true,
    nodes := [mkNode "A" "manual.trigger", mkNode "B" "http.request"],
    connections := [conn "A" "B", conn "B" "A"] }

/-- A registry with no handlers registered. -/
def emptyReg : Registry := fun _ => none

/-- A fresh execution context holding one pending node `X`. -/
def singleNodeCtx : ExecutionContext :=
  { workflowId := 3, status := ExecStatus.running,
    nodes := initNodes [mkNode "X" "http.request"], currentNodeId := none,
    data := [], error := none, connections := [], invocations := [] }

/-- The pending state of node `X` in `singleNodeCtx`. -/
def pendingNodeX : NodeExecutionData :=
  { id := "X", name := "X", type := "http.request", executed := false,
    status := NodeStatus.pending, error := none, inputData := [], outputData := none }

/-- A node state that already carries the executed flag. -/
def executedNodeA : NodeExecutionData :=
  { id := "A", name := "A", type := "manual.trigger", executed := true,
    status := NodeStatus.completed, error := none, inputData := [], outputData := some [] }

/-- A context in which node `A` has already executed and points back to
itself, exercising the idempotence guard. -/
def executedCtx : ExecutionContext :=
  { workflowId := 5, status := ExecStatus.running,
    nodes := [("A", executedNodeA)], currentNodeId := none,
    data := [], error := none, connections := [conn "A" "A"], invocations := [] }

/-- A lead-creation node fixture. -/
def leadCreateNode : Node := mkNode "L" "lead.create"

/-- A filter node with no configured conditions. -/
def filterNodeNoConds : Node := mkNode "F" "filter"

/-- A workflow without any trigger-typed node (claim C7). -/
def noTriggerWorkflow : Workflow :=
  { id := 6, active := true, nodes := [mkNode "X" "http.request"], connections := [] }

/-- An active workflow whose webhook trigger declares its method in lower
case (claim C6). -/
def lowerMethodWorkflow : Workflow :=
  { id := 7, active := true,
    nodes := [{ id := "W", name := "W", type := "webhook.trigger",
                parameters := [("path", JValue.str "hook"), ("method", JValue.str "post")] }],
    connections := [] }

/-- An active workflow whose webhook trigger declares method GET (claim C6). -/
def getMethodWorkflow : Workflow :=
  { id := 8, active := true,
    nodes := [{ id := "W", name := "W", type := "webhook.trigger",
                parameters := [("path", JValue.str "hook"), ("method", JValue.str "GET")] }],
    connections := [] }

/-- Helper: `executeWorkflow` always rejects and leaves the context
untouched, because every branch of start-node resolution either throws
the TypeError from `getNodeById` or finds no trigger node. -/
theorem executeWorkflow_rejects (reg : Registry) (fuel : Nat) (ctx : ExecutionContext)
    (snid : Option String) : ∃ e, executeWorkflow reg fuel ctx snid = (ctx, Except.error e) := by
  cases snid with
  | some id => exact ⟨promiseTypeError, rfl⟩
  | none =>
    cases h : (ctx.nodes.map Prod.snd).find? (fun n => strIncludes n.type "trigger") with
    | none => exact ⟨"No trigger node found", by simp [executeWorkflow, h, getNodeById]⟩
    | some ne => exact ⟨promiseTypeError, by simp [executeWorkflow, h, getNodeById]⟩

/-- Helper: every run finishes with in-memory and persisted status `error`. -/
theorem execute_always_error (reg : Registry) (fuel : Nat) (wf : Workflow)
    (td : RecordJ) (tnid : Option String) :
    (execute reg fuel wf td tnid).1.status = ExecStatus.error ∧
    (execute reg fuel wf td tnid).2.status = ExecStatus.error := by
  obtain ⟨e, he⟩ := executeWorkflow_rejects reg fuel
    { workflowId := wf.id, status := ExecStatus.running,
      nodes := initNodes wf.nodes, currentNodeId := none,
      data := td, error := none, connections := wf.connections,
      invocations := [] } tnid
  simp [execute, he]

/-- Helper: a keyed point-update commutes with keyed lookup on entry lists. -/
theorem find?_map_setEntry (l : List (String × NodeExecutionData)) (i : String)
    (f : NodeExecutionData → NodeExecutionData) :
    ((l.map (fun p => if p.1 == i then (p.1, f p.2) else p)).find?
        (fun p => p.1 == i)).map (fun p => p.2)
      = ((l.find? (fun p => p.1 == i)).map (fun p => p.2)).map f := by
  induction l with
  | nil => rfl
  | cons p rest ih =>
    by_cases h : p.1 = i
    · simp [List.find?, h]
    · have hb : (p.1 == i) = false := by simp [h]
      simp only [List.map_cons, List.find?, hb, if_neg]
      simpa [hb] using ih

/-- Helper: reading a node back after `ctxSetNode` on the same id. -/
theorem ctxGetNode_set_self (ctx : ExecutionContext) (i : String)
    (f : NodeExecutionData → NodeExecutionData) :
    ctxGetNode (ctxSetNode ctx i f) i = (ctxGetNode ctx i).map f := by
  unfold ctxGetNode ctxSetNode
  simpa using find?_map_setEntry ctx.nodes i f

/-- Helper: `isStrVal` characterized propositionally. -/
theorem isStrVal_iff (v : Option JValue) (s : String) :
    isStrVal v s = true ↔ v = some (JValue.str s) := by
  cases v with
  | none => simp [isStrVal]
  | some jv => cases jv <;> simp [isStrVal]

/-- C1: the claim states that in the diamond workflow (A to B, A to C,
B to D, C to D) with all four nodes succeeding, node D finally
accumulates keys of both the B and C outputs, with the later-merged
branch winning on conflicts.  On the code as written this run never gets
that far: resolving the start node goes through `getNodeById`, which
dereferences the un-awaited `storage.getWorkflow` Promise and throws a
TypeError, so for every registry (however successful its handlers), every
fuel budget and every trigger payload, the execution fails with that
TypeError before any node runs: no handler is invoked and the accumulated
input of D stays empty instead of containing the B and C keys. -/
theorem c1_diamond_run_crashes_before_merge :
    ∀ (reg : Registry) (fuel : Nat) (td : RecordJ),
    (execute reg fuel diamondWorkflow td none).1.status = ExecStatus.error ∧
    (execute reg fuel diamondWorkflow td none).1.error = some promiseTypeError ∧
    ctxGetNode (execute reg fuel diamondWorkflow td none).1 "D" = some
      { id := "D", name := "D", type := "email.send", executed := false,
        status := NodeStatus.pending, error := none, inputData := [], outputData := none } ∧
    (execute reg fuel diamondWorkflow td none).1.invocations = [] :=
  fun _ _ _ => ⟨rfl, rfl, rfl, rfl⟩

/-- C2 counterexample: the claim says the lead.create handler raises on
internal failure.  In fact, when the storage call rejects, its execute
resolves successfully to a structured record with success false and the
input echoed under data — the promise does not reject. -/
theorem c2_lead_create_failure_returns_data :
    leadCreateExecute "T0" (fun _ => Except.error "database unavailable") leadCreateNode []
      = Except.ok [("success", JValue.bool false), ("executed", JValue.bool true),
          ("timestamp", JValue.str "T0"), ("error", JValue.str "database unavailable"),
          ("data", JValue.obj [])] := rfl

/-- C2 as amended: not only the HTTP Request handler but every action
handler (lead.create, lead.score, http.request, email.send, filter)
catches its own failures and resolves to output data; none of them ever
rejects, and the three with external effects resolve to the same
structured record, with success false, the error message, and the input
data echoed, when that effect rejects.  Consequently a handler failure
never surfaces to the engine as a rejected execute. -/
theorem c2_all_action_handlers_never_reject :
    (∀ (ts : String) (cl : RecordJ → Except String JValue) (node : Node) (inp : RecordJ),
      ∃ r, leadCreateExecute ts cl node inp = Except.ok r) ∧
    (∀ (ts : String) (sf : JValue → Except String JValue) (node : Node) (inp : RecordJ),
      ∃ r, leadScoreExecute ts sf node inp = Except.ok r) ∧
    (∀ (ts : String) (ax : AxiosFn) (node : Node) (inp : RecordJ),
      ∃ r, httpRequestExecute ts ax node inp = Except.ok r) ∧
    (∀ (ts : String) (node : Node) (inp : RecordJ),
      ∃ r, emailSendExecute ts node inp = Except.ok r) ∧
    (∀ (ts : String) (node : Node) (inp : RecordJ),
      ∃ r, filterExecute ts node inp = Except.ok r) ∧
    (∀ (ts e : String) (node : Node) (inp : RecordJ),
      leadCreateExecute ts (fun _ => Except.error e) node inp
        = Except.ok [("success", JValue.bool false), ("executed", JValue.bool true),
            ("timestamp", JValue.str ts), ("error", JValue.str e), ("data", JValue.obj inp)]) ∧
    (∀ (ts e : String) (node : Node) (inp : RecordJ),
      leadScoreExecute ts (fun _ => Except.error e) node inp
        = Except.ok [("success", JValue.bool false), ("executed", JValue.bool true),
            ("timestamp", JValue.str ts), ("error", JValue.str e), ("data", JValue.obj inp)]) ∧
    (∀ (ts e : String) (node : Node) (inp : RecordJ),
      httpRequestExecute ts (fun _ _ _ _ => Except.error e) node inp
        = Except.ok [("success", JValue.bool false), ("executed", JValue.bool true),
            ("timestamp", JValue.str ts), ("error", JValue.str e), ("data", JValue.obj inp)]) := by
  refine ⟨?_, ?_, ?_, ?_, ?_, ?_, ?_, ?_⟩
  · intro ts cl node inp
    simp only [leadCreateExecute]
    split <;> exact ⟨_, rfl⟩
  · intro ts sf node inp
    simp only [leadScoreExecute]
    split <;> exact ⟨_, rfl⟩
  · intro ts ax node inp
    simp only [httpRequestExecute]
    split <;> exact ⟨_, rfl⟩
  · intro ts node inp
    exact ⟨_, rfl⟩
  · intro ts node inp
    simp only [filterExecute]
    split <;> exact ⟨_, rfl⟩
  · intro ts e node inp
    rfl
  · intro ts e node inp
    rfl
  · intro ts e node inp
    rfl

/-- C3: the claim says a traversal that returns without raising persists
status completed.  The code never assigns completed to the execution
status anywhere: the terminal update writes `status: execution.status`,
which is still running on the success path, and in fact every traversal
rejects (the un-awaited `storage.getWorkflow` TypeError or the missing
trigger error), so for all registries, workflows, payloads and start
options both the in-memory status and the persisted status equal error —
never completed. -/
theorem c3_persisted_status_is_never_completed :
    ∀ (reg : Registry) (fuel : Nat) (wf : Workflow) (td : RecordJ)
    (tnid : Option String),
    (execute reg fuel wf td tnid).2.status = ExecStatus.error ∧
    (execute reg fuel wf td tnid).1.status = ExecStatus.error ∧
    (execute reg fuel wf td tnid).2.status ≠ ExecStatus.completed := by
  intro reg fuel wf td tnid
  have h := execute_always_error reg fuel wf td tnid
  refine ⟨h.2, h.1, ?_⟩
  rw [h.2]
  intro hc
  exact ExecStatus.noConfusion hc

/-- C4: the claim says the engine checks a cancellation flag before each
node visit and marks a cancelled execution with status cancelled.  The
engine has no cancellation flag, no cancel entry point and no check —
`ExecutionContext` carries no such field and `executeNode` tests nothing
of the kind — so no run of `execute`, whatever its registry, workflow,
payload or start option, ever yields status cancelled, in memory or
persisted. -/
theorem c4_execution_status_is_never_cancelled :
    ∀ (reg : Registry) (fuel : Nat) (wf : Workflow) (td : RecordJ)
    (tnid : Option String),
    (execute reg fuel wf td tnid).1.status ≠ ExecStatus.cancelled ∧
    (execute reg fuel wf td tnid).2.status ≠ ExecStatus.cancelled := by
  intro reg fuel wf td tnid
  have h := execute_always_error reg fuel wf td tnid
  constructor
  · rw [h.1]; intro hc; exact ExecStatus.noConfusion hc
  · rw [h.2]; intro hc; exact ExecStatus.noConfusion hc

/-- C5 counterexample: the claim says a node finishing in error carries
executed true alongside status error.  Running `executeNode` on a fresh
pending node puts it into status error with executed still false. -/
theorem c5_errored_node_has_executed_false :
    ((ctxGetNode (executeNode emptyReg 1 singleNodeCtx "X").1 "X").map
      NodeExecutionData.status) = some NodeStatus.error ∧
    ((ctxGetNode (executeNode emptyReg 1 singleNodeCtx "X").1 "X").map
      NodeExecutionData.executed) = some false := ⟨rfl, rfl⟩

/-- C5 as amended: the executed flag is set only on the success path of
`executeNode`; when the visit of a not-yet-executed node fails — in this
engine every such visit fails, with the TypeError of the un-awaited
workflow lookup — the node ends in status error with its executed flag
still false, and no handler invocation is recorded. -/
theorem c5_executed_set_only_on_success (reg : Registry) (fuel : Nat)
    (ctx : ExecutionContext) (nodeId : String) (ne : NodeExecutionData)
    (h : ctxGetNode ctx nodeId = some ne) (hex : ne.executed = false) :
    ctxGetNode (executeNode reg (fuel + 1) ctx nodeId).1 nodeId
      = some { ne with status := NodeStatus.error, error := some promiseTypeError } ∧
    (executeNode reg (fuel + 1) ctx nodeId).2 = Except.error promiseTypeError ∧
    (executeNode reg (fuel + 1) ctx nodeId).1.invocations = ctx.invocations := by
  have e1 : executeNode reg (fuel + 1) ctx nodeId
      = (ctxSetNode { ctxSetNode ctx nodeId (fun n => { n with status := NodeStatus.running }) with
            currentNodeId := some nodeId } nodeId
          (fun n => { n with status := NodeStatus.error, error := some promiseTypeError }),
         Except.error promiseTypeError) := by
    simp only [executeNode, h, hex, getNodeById]
    simp
  rw [e1]
  refine ⟨?_, rfl, rfl⟩
  have g2 : ctxGetNode { ctxSetNode ctx nodeId (fun n => { n with status := NodeStatus.running }) with
      currentNodeId := some nodeId } nodeId
      = ctxGetNode (ctxSetNode ctx nodeId (fun n => { n with status := NodeStatus.running })) nodeId := rfl
  rw [ctxGetNode_set_self, g2, ctxGetNode_set_self, h]
  rfl

/-- C5 witness: the amended statement applied to the concrete pending
node `X` of `singleNodeCtx`. -/
theorem c5_executed_set_only_on_success_witness :
    ctxGetNode singleNodeCtx "X" = some pendingNodeX ∧
    pendingNodeX.executed = false ∧
    ctxGetNode (executeNode emptyReg 1 singleNodeCtx "X").1 "X"
      = some { pendingNodeX with status := NodeStatus.error, error := some promiseTypeError } ∧
    (executeNode emptyReg 1 singleNodeCtx "X").2 = Except.error promiseTypeError :=
  ⟨rfl, rfl, (c5_executed_set_only_on_success emptyReg 0 singleNodeCtx "X" pendingNodeX rfl rfl).1,
   (c5_executed_set_only_on_success emptyReg 0 singleNodeCtx "X" pendingNodeX rfl rfl).2.1⟩

/-- C6 counterexample: the claim says the method match is
case-insensitive, defaulting an absent method to POST.  A workflow whose
webhook trigger declares method in lower case matches the spec policy for
a POST request but is not triggered by the code (strict `===` against the
upper-case `req.method`), and a workflow declaring method GET matches the
spec policy for a GET request but is never triggered, because the route
is registered for POST only. -/
theorem c6_method_matching_counterexample :
    specWebhookTriggered "POST" "hook" lowerMethodWorkflow = true ∧
    webhookTriggered "POST" "hook" lowerMethodWorkflow = false ∧
    specWebhookTriggered "GET" "hook" getMethodWorkflow = true ∧
    webhookTriggered "GET" "hook" getMethodWorkflow = false := by
  refine ⟨?_, ?_, ?_, ?_⟩ <;> rfl

/-- C6 as amended: only POST requests reach the webhook endpoint at all,
and then a workflow is triggered exactly when it is active and contains a
webhook.trigger node whose configured path is strictly equal to the
request path and whose configured method is either absent (falsy) or
strictly, case-sensitively, the exact string POST. -/
theorem c6_webhook_matching_characterization (reqMethod reqPath : String) (wf : Workflow) :
    webhookTriggered reqMethod reqPath wf = true ↔
      (reqMethod = "POST" ∧ wf.active = true ∧
        ∃ n ∈ wf.nodes, n.type = "webhook.trigger" ∧
          recGet n.parameters "path" = some (JValue.str reqPath) ∧
          (jsFalsy (recGet n.parameters "method") = true ∨
            recGet n.parameters "method" = some (JValue.str "POST"))) := by
  unfold webhookTriggered workflowMatchesWebhook findWebhookTriggerNode webhookNodeMatches
  constructor
  · intro h
    simp only [Bool.and_eq_true, List.any_eq_true, beq_iff_eq, Bool.or_eq_true,
      isStrVal_iff, List.find?_isSome] at h
    obtain ⟨⟨hm, hact, n, hn, ⟨htype, hpath⟩, hmeth⟩, hfind⟩ := h
    subst hm
    exact ⟨rfl, hact, n, hn, htype, hpath, hmeth⟩
  · rintro ⟨hm, hact, n, hn, htype, hpath, hmeth⟩
    subst hm
    simp only [Bool.and_eq_true, List.any_eq_true, beq_iff_eq, Bool.or_eq_true,
      isStrVal_iff, List.find?_isSome]
    exact ⟨⟨by simp, hact, n, hn, ⟨htype, hpath⟩, hmeth⟩, n, hn, htype, hpath⟩

/-- C7: executing any workflow that has no trigger-typed node (no node
type containing the substring trigger) without an explicit start id
produces an execution whose in-memory and persisted terminal status is
error with the message No trigger node found. -/
theorem c7_no_trigger_node_yields_error (reg : Registry) (fuel : Nat) (wf : Workflow)
    (td : RecordJ) (hno : ∀ n ∈ wf.nodes, strIncludes n.type "trigger" = false) :
    (execute reg fuel wf td none).1.status = ExecStatus.error ∧
    (execute reg fuel wf td none).1.error = some "No trigger node found" ∧
    (execute reg fuel wf td none).2.status = ExecStatus.error ∧
    (execute reg fuel wf td none).2.error = some "No trigger node found" := by
  have hfind : ((initNodes wf.nodes).map Prod.snd).find?
      (fun n => strIncludes n.type "trigger") = none := by
    rw [List.find?_eq_none]
    intro x hx
    simp only [initNodes, List.map_map, List.mem_map] at hx
    obtain ⟨n, hn, rfl⟩ := hx
    simp [hno n hn]
  simp [execute, executeWorkflow, hfind, getNodeById]

/-- C7 witness: the statement applied to a concrete workflow whose only
node is an http.request action. -/
theorem c7_no_trigger_node_yields_error_witness :
    (∀ n ∈ noTriggerWorkflow.nodes, strIncludes n.type "trigger" = false) ∧
    (execute emptyReg 1 noTriggerWorkflow [] none).1.status = ExecStatus.error ∧
    (execute emptyReg 1 noTriggerWorkflow [] none).1.error = some "No trigger node found" :=
  ⟨by decide, (c7_no_trigger_node_yields_error emptyReg 1 noTriggerWorkflow [] (by decide)).1,
   (c7_no_trigger_node_yields_error emptyReg 1 noTriggerWorkflow [] (by decide)).2.1⟩

/-- C8: on a cyclic workflow the engine terminates and never executes a
node twice.  Three facts: a node whose executed flag is already set is
returned from immediately, unchanged and without invoking any handler
(the idempotence guard of `executeNode`); the run of the cyclic workflow
A to B to A is independent of the recursion budget, so no amount of fuel
changes its outcome (it terminates rather than recursing unboundedly);
and every node id appears at most once in the handler-invocation trace of
that run. -/
theorem c8_cycle_terminates_without_reexecution :
    (∀ (reg : Registry) (fuel : Nat) (ctx : ExecutionContext) (nodeId : String)
      (ne : NodeExecutionData), ctxGetNode ctx nodeId = some ne → ne.executed = true →
      executeNode reg (fuel + 1) ctx nodeId = (ctx, Except.ok ())) ∧
    (∀ (reg : Registry) (f1 f2 : Nat) (td : RecordJ),
      execute reg f1 cycleWorkflow td none = execute reg f2 cycleWorkflow td none) ∧
    (∀ (reg : Registry) (fuel : Nat) (td : RecordJ) (i : String),
      ((execute reg fuel cycleWorkflow td none).1.invocations.count i) ≤ 1) := by
  refine ⟨?_, ?_, ?_⟩
  · intro reg fuel ctx nodeId ne h hex
    simp [executeNode, h, hex]
  · intro reg f1 f2 td
    rfl
  · intro reg fuel td i
    rw [show (execute reg fuel cycleWorkflow td none).1.invocations = [] from rfl]
    simp

/-- C8 witness: the guard applied to a concrete already-executed node,
and the cyclic run compared at two concrete fuel values. -/
theorem c8_cycle_terminates_without_reexecution_witness :
    ctxGetNode executedCtx "A" = some executedNodeA ∧
    executedNodeA.executed = true ∧
    executeNode emptyReg 1 executedCtx "A" = (executedCtx, Except.ok ()) ∧
    execute emptyReg 0 cycleWorkflow [] none = execute emptyReg 7 cycleWorkflow [] none ∧
    ((execute emptyReg 7 cycleWorkflow [] none).1.invocations.count "A") ≤ 1 :=
  ⟨rfl, rfl, c8_cycle_terminates_without_reexecution.1 emptyReg 0 executedCtx "A" executedNodeA rfl rfl,
   c8_cycle_terminates_without_reexecution.2.1 emptyReg 0 7 [],
   c8_cycle_terminates_without_reexecution.2.2 emptyReg 7 [] "A"⟩

/-- C9: placeholder resolution in the HTTP Request handler.  For every
input data record in which the dotted path lead.email resolves to a
value, the template resolves to the prefix followed by the JavaScript
string form of that value; and for every record in which missing.key does
not resolve, the placeholder is left verbatim, neither substituted nor an
error. -/
theorem c9_placeholder_resolution :
    (∀ (d : RecordJ) (v : JValue), pathWalk (JValue.obj d) ["lead", "email"] = some v →
      replacePlaceholders "https://x.test/\x7b\x7blead.email\x7d\x7d" d
        = "https://x.test/" ++ jsToString v) ∧
    (∀ d : RecordJ, pathWalk (JValue.obj d) ["missing", "key"] = none →
      replacePlaceholders "https://x.test/\x7b\x7bmissing.key\x7d\x7d" d
        = "https://x.test/\x7b\x7bmissing.key\x7d\x7d") := by
  constructor
  · intro d v h
    simp [replacePlaceholders, scanPH, phTake, phReplace, charsTrim, splitDots,
      lbrace, rbrace, h]
    rfl
  · intro d h
    simp [replacePlaceholders, scanPH, phTake, phReplace, charsTrim, splitDots,
      lbrace, rbrace, h]

/-- C9 witness: both parts applied to the concrete record of the spec
example, with lead.email holding a@b.com. -/
theorem c9_placeholder_resolution_witness :
    replacePlaceholders "https://x.test/\x7b\x7blead.email\x7d\x7d"
      [("lead", JValue.obj [("email", JValue.str "a@b.com")])] = "https://x.test/a@b.com" ∧
    replacePlaceholders "https://x.test/\x7b\x7bmissing.key\x7d\x7d"
      [("lead", JValue.obj [("email", JValue.str "a@b.com")])]
      = "https://x.test/\x7b\x7bmissing.key\x7d\x7d" :=
  ⟨c9_placeholder_resolution.1 [("lead", JValue.obj [("email", JValue.str "a@b.com")])]
    (JValue.str "a@b.com") rfl,
   c9_placeholder_resolution.2 [("lead", JValue.obj [("email", JValue.str "a@b.com")])] rfl⟩

/-- C10: whenever the configured conditions of a filter node are absent
or the empty list, the filter passes regardless of the configured
combinator: the result has matches true and echoes the input unchanged
under data. -/
theorem c10_empty_conditions_filter_passes :
    ∀ (ts : String) (node : Node) (inp : RecordJ),
    (recGet node.parameters "conditions" = none ∨
      recGet node.parameters "conditions" = some (JValue.arr [])) →
    filterExecute ts node inp = Except.ok
      [("success", JValue.bool true), ("executed", JValue.bool true),
       ("timestamp", JValue.str ts), ("matches", JValue.bool true),
       ("data", JValue.obj inp)] := by
  intro ts node inp h
  cases h with
  | inl h => simp [filterExecute, filterCombine, h, jsFalsy]
  | inr h => simp [filterExecute, filterCombine, h, jsFalsy]

/-- C10 witness: the statement applied to a filter node without
conditions and a concrete input record. -/
theorem c10_empty_conditions_filter_passes_witness :
    filterExecute "T" filterNodeNoConds [("x", JValue.num 1)] = Except.ok
      [("success", JValue.bool true), ("executed", JValue.bool true),
       ("timestamp", JValue.str "T"), ("matches", JValue.bool true),
       ("data", JValue.obj [("x", JValue.num 1)])] :=
  c10_empty_conditions_filter_passes "T" filterNodeNoConds [("x", JValue.num 1)] (Or.inl rfl)
